import Mathlib

/-!
Verification of the `codesigndoc` Xcode scanner command (`cmd/xcode.go`).

The Go source is shallowly embedded: the pure filename derivation
(`provProfileExportFileName`) becomes a Lean function over character lists,
Go's `regexp.Compile` of a negated character class is modelled by a small
fallible character-class compiler (so its error branch is represented), and
the effectful functions (`exportProvisioningProfiles`, `scanXcodeProject`)
become functions over explicit oracles for their external calls, returning
the Go result together with a trace of the file writes, copy attempts and
export invocations performed.
-/

/-- Descriptor of the embedded provisioning profile data
(`provprofile.ProvisioningProfileInfoModel`); only the fields read by
`cmd/xcode.go` (`Name`, `UUID`) are modelled. -/
structure ProvisioningProfileInfoModel where
  Name : String
  UUID : String
deriving DecidableEq, Repr

/-- `provprofile.ProvisioningProfileFileInfoModel`: a discovered profile file,
its path plus its decoded info. -/
structure ProvisioningProfileFileInfoModel where
  Path : String
  ProvisioningProfileInfo : ProvisioningProfileInfoModel
deriving DecidableEq, Repr

/-- Go `strings.HasSuffix` (byte-level; on the ASCII suffixes used here this
is character-level suffix testing). -/
def goHasSuffix (s suffix : String) : Bool :=
  suffix.data.isSuffixOf s.data

/-- Go `filepath.Join` for the two-argument, already-clean paths used in
`cmd/xcode.go` (no empty components, no `.`/`..` segments, so Go's
`Clean` step is the identity on them). -/
def filepathJoin (dir elem : String) : String :=
  dir ++ "/" ++ elem

/-- Items of a regular-expression character class: a list of inclusive
character ranges, a single literal `c` being the range `(c, c)`.
Parses the body of a class up to the closing bracket, as Go's
`regexp/syntax` does for the classes occurring here: `a-b` is a range
(rejected if empty, Go's `invalid character class range` error), a `-`
directly before the closing `]` is a literal. -/
def parseClassItems : List Char → Option (List (Char × Char))
  | [']'] => some []
  | a :: '-' :: ']' :: [] => some [(a, a), ('-', '-')]
  | a :: '-' :: b :: rest =>
    if a ≤ b then (parseClassItems rest).map (fun items => (a, b) :: items) else none
  | a :: rest => (parseClassItems rest).map (fun items => (a, a) :: items)
  | [] => none

/-- Go `regexp.Compile` restricted to the shape used in
`provProfileExportFileName`: a negated character class `[^...]`.  On success
the returned matcher decides whether one character is matched (i.e. lies
outside the listed ranges); malformed patterns yield `none` (Go's non-nil
compile error). -/
def regexpCompileNegClass (pattern : String) : Option (Char → Bool) :=
  match pattern.data with
  | '[' :: '^' :: rest =>
    (parseClassItems rest).map
      (fun items c => !(items.any (fun p => decide (p.1 ≤ c) && decide (c ≤ p.2))))
  | _ => none

/-- Go `Regexp.ReplaceAllString s ""` for a single-character matcher: every
matched character is removed. -/
def replaceAllStringEmpty (matcher : Char → Bool) (s : String) : String :=
  String.mk (s.data.filter (fun c => !(matcher c)))

/-- Embedding of `provProfileExportFileName` (`cmd/xcode.go` lines 140-153):
compile `[^A-Za-z0-9_.-]`, on a compile error log a warning and return `""`;
otherwise strip the matched characters from the profile name, pick the
extension from the source path's own suffix, and return
`<UUID>.<safeTitle><extension>`. -/
def provProfileExportFileName (provProfileFileInfo : ProvisioningProfileFileInfoModel) : String :=
  match regexpCompileNegClass "[^A-Za-z0-9_.-]" with
  | none => ""
  | some replaceRexp =>
    let safeTitle := replaceAllStringEmpty replaceRexp
      provProfileFileInfo.ProvisioningProfileInfo.Name
    let extension :=
      if goHasSuffix provProfileFileInfo.Path ".provisionprofile" then ".provisionprofile"
      else ".mobileprovision"
    provProfileFileInfo.ProvisioningProfileInfo.UUID ++ "." ++ safeTitle ++ extension

/-- The spec's sanitization character set, §4.5: the class `[A-Za-z0-9_.-]`,
stated from the spec's words (for the refinement claim about the filename
formula). -/
def specAllowedChar (c : Char) : Bool :=
  (decide ('A' ≤ c) && decide (c ≤ 'Z')) || (decide ('a' ≤ c) && decide (c ≤ 'z')) ||
  (decide ('0' ≤ c) && decide (c ≤ '9')) || c == '_' || c == '.' || c == '-'

/-- The spec's filename derivation, §4.5, stated from the spec's words:
`<uuid>.<sanitizedName><extension>` where `sanitizedName` strips every
character outside `[A-Za-z0-9_.-]` from the display name and the extension
is taken from the source file's own suffix. -/
def specExportFileName (info : ProvisioningProfileFileInfoModel) : String :=
  info.ProvisioningProfileInfo.UUID ++ "." ++
    String.mk (info.ProvisioningProfileInfo.Name.data.filter specAllowedChar) ++
    (if goHasSuffix info.Path ".provisionprofile" then ".provisionprofile"
     else ".mobileprovision")

/-- Embedding of `exportProvisioningProfiles` (`cmd/xcode.go` lines 124-138).
`runCopy from to` is the oracle for `cmdex.RunCommand "cp" from to` (`none` =
success, `some e` = the copy failed with error text `e`).  The result pairs the
ordered trace of attempted copies `(from, to)` with the Go return value: `none`
on success, or the first copy's wrapped error, at which point the loop returns
and the remaining profiles are not copied. -/
def exportProvisioningProfiles (runCopy : String → String → Option String)
    (provProfileFileInfos : List ProvisioningProfileFileInfoModel)
    (exportTargetDirPath : String) : List (String × String) × Option String :=
  match provProfileFileInfos with
  | [] => ([], none)
  | aProvProfileFileInfo :: rest =>
    let exportFileName := provProfileExportFileName aProvProfileFileInfo
    let exportPth := filepathJoin exportTargetDirPath exportFileName
    match runCopy aProvProfileFileInfo.Path exportPth with
    | some e =>
      ([(aProvProfileFileInfo.Path, exportPth)],
       some ("Failed to copy Provisioning Profile (from: " ++ aProvProfileFileInfo.Path ++
             ") (to: " ++ exportPth ++ "), error: " ++ e))
    | none =>
      let res := exportProvisioningProfiles runCopy rest exportTargetDirPath
      ((aProvProfileFileInfo.Path, exportPth) :: res.1, res.2)

/-- Oracles for the external calls made by `scanXcodeProject`, one field per
call site, generic in the type `σ` of the opaque
`xcode.CodeSigningSettingsModel` value (defined outside `cmd/xcode.go` and
only passed through by it). -/
structure XcodeScanEnv (σ : Type) where
  /-- the `--file` flag value (`paramXcodeProjectFilePath`, `""` = not given) -/
  paramXcodeProjectFilePath : String
  /-- the `--scheme` flag value (`paramXcodeScheme`, `""` = not given) -/
  paramXcodeScheme : String
  /-- `initExportOutputDir()`: the absolute export directory, or an error -/
  initExportOutputDir : Except String String
  /-- `goinp.AskForPath` for the project file prompt -/
  askForPath : Except String String
  /-- `xcodeCmd.ScanSchemes()` -/
  scanSchemes : Except String (List String)
  /-- `goinp.SelectFromStrings "Select the Scheme ..."` -/
  selectFromStrings : List String → Except String String
  /-- `xcodeCmd.ScanCodeSigningSettings()` for a given project file path and
  scheme: the settings, the full `xcodebuild` output, and the error if any -/
  scanCodeSigningSettings : String → String → σ × String × Option String
  /-- `fileutil.WriteStringToFile path contents` (`none` = written) -/
  writeStringToFile : String → String → Option String
  /-- `exportCodeSigningFiles toolName absExportOutputDirPath settings`
  (defined in another file of the `cmd` package) -/
  exportCodeSigningFiles : String → String → σ → Option String

/-- Trace of the externally visible effects of one `scanXcodeProject` run:
the file writes attempted (path, contents, whether the write succeeded) and
whether `exportCodeSigningFiles` was invoked. -/
structure ScanTrace where
  writes : List (String × String × Bool)
  exportInvoked : Bool
deriving DecidableEq, Repr

/-- Modelled from the spec: `printFinishedWithError` lives in another file of
the `cmd` package (not under `src/`); per §2 and §7 the command "surfaces
failures to the user" and returns a non-nil error, so it is modelled as
returning the failure with its formatted message, tagged by the tool name. -/
def printFinishedWithError (toolName msg : String) : Option String :=
  some (toolName ++ " scan finished with error: " ++ msg)

/-- `printXcodeScanFinishedWithError` (`cmd/xcode.go` lines 47-49). -/
def printXcodeScanFinishedWithError (msg : String) : Option String :=
  printFinishedWithError "Xcode" msg

/-- The project-path resolution step of `scanXcodeProject`: take the `--file`
flag if set, otherwise prompt (`goinp.AskForPath`); a prompt failure is the
wrapped error returned by the command. -/
def resolveProjectPath (env : XcodeScanEnv σ) : Except String String :=
  if env.paramXcodeProjectFilePath = "" then
    match env.askForPath with
    | .error err => .error ("Failed to read input: " ++ toString err)
    | .ok projpth => .ok projpth
  else .ok env.paramXcodeProjectFilePath

/-- The scheme resolution step of `scanXcodeProject`: take the `--scheme`
flag if set, otherwise scan the schemes and prompt for a selection, wrapping
either failure. -/
def resolveScheme (env : XcodeScanEnv σ) : Except String String :=
  if env.paramXcodeScheme = "" then
    match env.scanSchemes with
    | .error err => .error ("Failed to scan Schemes: " ++ toString err)
    | .ok schemes =>
      match env.selectFromStrings schemes with
      | .error err => .error ("Failed to select Scheme: " ++ toString err)
      | .ok selectedScheme => .ok selectedScheme
  else .ok env.paramXcodeScheme

/-- The build-and-export tail of `scanXcodeProject` (`cmd/xcode.go` lines
100-122), entered once the export directory, project path and scheme are
known: run `ScanCodeSigningSettings`, unconditionally save its output to
`xcodebuild-output.log` in the export directory (a write failure is only
logged), then fail if the scan failed, else run `exportCodeSigningFiles`. -/
def scanXcodeProjectFrom (env : XcodeScanEnv σ)
    (absExportOutputDirPath projectPath schemeToUse : String) :
    Option String × ScanTrace :=
  let scanRes := env.scanCodeSigningSettings projectPath schemeToUse
  let codeSigningSettings := scanRes.1
  let xcodebuildOutput := scanRes.2.1
  let scanErr := scanRes.2.2
  let xcodebuildOutputFilePath := filepathJoin absExportOutputDirPath "xcodebuild-output.log"
  let writeRes := env.writeStringToFile xcodebuildOutputFilePath xcodebuildOutput
  let tr : ScanTrace :=
    { writes := [(xcodebuildOutputFilePath, xcodebuildOutput, writeRes.isNone)]
      exportInvoked := false }
  match scanErr with
  | some e =>
    (printXcodeScanFinishedWithError ("Failed to detect code signing settings: " ++ e), tr)
  | none =>
    (env.exportCodeSigningFiles "Xcode" absExportOutputDirPath codeSigningSettings,
     { tr with exportInvoked := true })

/-- Embedding of `scanXcodeProject` (`cmd/xcode.go` lines 51-122): prepare the
export directory, resolve project path and scheme (each failure returns the
wrapped error with no writes and no export), then run the build-and-export
tail. -/
def scanXcodeProject (env : XcodeScanEnv σ) : Option String × ScanTrace :=
  match env.initExportOutputDir with
  | .error err =>
    (printXcodeScanFinishedWithError ("Failed to prepare Export directory: " ++ toString err),
     { writes := [], exportInvoked := false })
  | .ok absExportOutputDirPath =>
    match resolveProjectPath env with
    | .error e => (printXcodeScanFinishedWithError e, { writes := [], exportInvoked := false })
    | .ok projectPath =>
      match resolveScheme env with
      | .error e => (printXcodeScanFinishedWithError e, { writes := [], exportInvoked := false })
      | .ok schemeToUse =>
        scanXcodeProjectFrom env absExportOutputDirPath projectPath schemeToUse

/-- The ranges to which the pattern `[^A-Za-z0-9_.-]` compiles. -/
def safeTitleClassItems : List (Char × Char) :=
  [('A', 'Z'), ('a', 'z'), ('0', '9'), ('_', '_'), ('.', '.'), ('-', '-')]

/-- A concrete scan environment in which the build tool cannot be launched:
`ScanCodeSigningSettings` reports a launch failure with an empty transcript,
both CLI flags are set, and the export directory is `/out`. -/
def envLaunchFail : XcodeScanEnv Unit where
  paramXcodeProjectFilePath := "/proj/App.xcodeproj"
  paramXcodeScheme := "App"
  initExportOutputDir := Except.ok "/out"
  askForPath := Except.error "unused"
  scanSchemes := Except.error "unused"
  selectFromStrings := fun _ => Except.error "unused"
  scanCodeSigningSettings := fun _ _ =>
    ((), "", some "failed to start the build: xcodebuild executable not found")
  writeStringToFile := fun _ _ => none
  exportCodeSigningFiles := fun _ _ _ => none

/-! ### Helper lemmas -/

theorem regexpCompileNegClass_safeTitle :
    regexpCompileNegClass "[^A-Za-z0-9_.-]" =
      some (fun c => !(safeTitleClassItems.any
        (fun p => decide (p.1 ≤ c) && decide (c ≤ p.2)))) := rfl

theorem range_singleton_decide (a c : Char) :
    (decide (a ≤ c) && decide (c ≤ a)) = (c == a) := by
  by_cases h : c = a
  · subst h; simp
  · by_cases h1 : a ≤ c
    · by_cases h2 : c ≤ a
      · exact absurd (le_antisymm h2 h1) h
      · simp [h1, h2, h]
    · simp [h1, h]

theorem safeTitle_matcher_not (c : Char) :
    (!(!(safeTitleClassItems.any (fun p => decide (p.1 ≤ c) && decide (c ≤ p.2))))) =
      specAllowedChar c := by
  rw [Bool.not_not]
  simp only [safeTitleClassItems, List.any_cons, List.any_nil, Bool.or_false]
  rw [range_singleton_decide '_' c, range_singleton_decide '.' c,
    range_singleton_decide '-' c]
  simp [specAllowedChar, Bool.or_assoc]

/-- `provProfileExportFileName` agrees with the §4.5 formula on every
descriptor. -/
theorem provProfileExportFileName_eq_spec (info : ProvisioningProfileFileInfoModel) :
    provProfileExportFileName info = specExportFileName info := by
  rw [provProfileExportFileName, regexpCompileNegClass_safeTitle]
  simp only [replaceAllStringEmpty, specExportFileName]
  rw [List.filter_congr (fun c _ => safeTitle_matcher_not c)]

/-- A `.`-free block before the first `.` determines the split: if two
concatenations `l ++ [.] ++ r` agree and neither `l` contains `.`, the `l`s
agree. -/
theorem append_dot_cancel :
    ∀ (l1 l2 r1 r2 : List Char), '.' ∉ l1 → '.' ∉ l2 →
      l1 ++ '.' :: r1 = l2 ++ '.' :: r2 → l1 = l2 := by
  intro l1
  induction l1 with
  | nil =>
    intro l2 r1 r2 _ h2 h
    cases l2 with
    | nil => rfl
    | cons b t =>
      simp only [List.nil_append, List.cons_append, List.cons.injEq] at h
      exact absurd (h.1 ▸ List.mem_cons_self b t) h2
  | cons a t ih =>
    intro l2 r1 r2 h1 h2 h
    cases l2 with
    | nil =>
      simp only [List.cons_append, List.nil_append, List.cons.injEq] at h
      exact absurd (h.1 ▸ List.mem_cons_self a t) h1
    | cons b t2 =>
      simp only [List.cons_append, List.cons.injEq] at h
      have ht : t = t2 :=
        ih t2 r1 r2 (fun hm => h1 (List.mem_cons_of_mem a hm))
          (fun hm => h2 (List.mem_cons_of_mem b hm)) h.2
      rw [h.1, ht]

/-- The character data of the §4.5 filename: the uuid, a dot, then the
sanitized name and extension. -/
theorem specExportFileName_data (info : ProvisioningProfileFileInfoModel) :
    (specExportFileName info).data =
      info.ProvisioningProfileInfo.UUID.data ++
        '.' :: (info.ProvisioningProfileInfo.Name.data.filter specAllowedChar ++
          (if goHasSuffix info.Path ".provisionprofile" then ".provisionprofile"
           else ".mobileprovision").data) := by
  rw [specExportFileName]
  rw [String.data_append, String.data_append, String.data_append]
  rw [List.append_assoc, List.append_assoc]
  rfl

/-! ### Claims -/

/-- C2: for every descriptor the export filename equals the descriptor's
UUID, a dot, the display name with every character outside `[A-Za-z0-9_.-]`
removed, then the extension taken from the source file's own suffix
(`.provisionprofile` kept, otherwise `.mobileprovision`); in particular the
descriptor with uuid `1111-AAAA`, name `Wildcard Profile` and a
`.mobileprovision` source yields exactly
`1111-AAAA.WildcardProfile.mobileprovision`. -/
theorem provProfileExportFileName_matches_spec :
    (∀ info : ProvisioningProfileFileInfoModel,
      provProfileExportFileName info = specExportFileName info) ∧
    provProfileExportFileName
        ⟨"/p/wildcard.mobileprovision", ⟨"Wildcard Profile", "1111-AAAA"⟩⟩ =
      "1111-AAAA.WildcardProfile.mobileprovision" :=
  ⟨provProfileExportFileName_eq_spec, by decide⟩

/-- C6: export filename generation is deterministic: two descriptors with the
same UUID, name and path get identical filenames. -/
theorem provProfileExportFileName_deterministic
    (d1 d2 : ProvisioningProfileFileInfoModel)
    (hu : d1.ProvisioningProfileInfo.UUID = d2.ProvisioningProfileInfo.UUID)
    (hn : d1.ProvisioningProfileInfo.Name = d2.ProvisioningProfileInfo.Name)
    (hp : d1.Path = d2.Path) :
    provProfileExportFileName d1 = provProfileExportFileName d2 := by
  rcases d1 with ⟨p1, n1, u1⟩
  rcases d2 with ⟨p2, n2, u2⟩
  dsimp only at hu hn hp
  rw [hu, hn, hp]

/-- Witness for C6 at a concrete descriptor value. -/
theorem provProfileExportFileName_deterministic_witness :
    provProfileExportFileName ⟨"/p/a.mobileprovision", ⟨"My Profile", "1234-ABCD"⟩⟩ =
      provProfileExportFileName ⟨"/p/a.mobileprovision", ⟨"My Profile", "1234-ABCD"⟩⟩ :=
  provProfileExportFileName_deterministic _ _ rfl rfl rfl

/-- C8: the error branch of `provProfileExportFileName` is unreachable:
the pattern `[^A-Za-z0-9_.-]` always compiles, and for every descriptor the
function returns the derived filename, never the empty string. -/
theorem provProfileExportFileName_never_empty :
    (regexpCompileNegClass "[^A-Za-z0-9_.-]").isSome = true ∧
    ∀ info : ProvisioningProfileFileInfoModel, provProfileExportFileName info ≠ "" := by
  refine ⟨rfl, fun info h => ?_⟩
  have hd := congrArg String.data h
  rw [provProfileExportFileName_eq_spec, specExportFileName_data] at hd
  simp at hd

/-- C9: for every descriptor whose source path does not end in
`.provisionprofile`, the exported filename ends in `.mobileprovision`. -/
theorem provProfileExportFileName_defaults_mobileprovision
    (info : ProvisioningProfileFileInfoModel)
    (h : goHasSuffix info.Path ".provisionprofile" = false) :
    ".mobileprovision".data <:+ (provProfileExportFileName info).data := by
  rw [provProfileExportFileName_eq_spec, specExportFileName_data, h]
  refine ⟨info.ProvisioningProfileInfo.UUID.data ++
    '.' :: info.ProvisioningProfileInfo.Name.data.filter specAllowedChar, ?_⟩
  simp

/-- Witness for C9: a source file with an unrelated `.plist` suffix. -/
theorem provProfileExportFileName_defaults_mobileprovision_witness :
    goHasSuffix "/p/other.plist" ".provisionprofile" = false ∧
    ".mobileprovision".data <:+
      (provProfileExportFileName ⟨"/p/other.plist", ⟨"Team Profile", "2222-BBBB"⟩⟩).data :=
  ⟨by decide, provProfileExportFileName_defaults_mobileprovision
    ⟨"/p/other.plist", ⟨"Team Profile", "2222-BBBB"⟩⟩ (by decide)⟩

/-- C1 counterexample: two descriptors with distinct UUIDs (`A` and `A.B`)
whose export filenames coincide (`A.B.C.mobileprovision`), because a UUID
containing a dot can re-divide the `<uuid>.<name>` boundary when the display
names differ. -/
theorem provProfileExportFileName_collision_counterexample :
    ("A" : String) ≠ "A.B" ∧
    provProfileExportFileName ⟨"/p/a.mobileprovision", ⟨"B.C", "A"⟩⟩ =
      provProfileExportFileName ⟨"/p/b.mobileprovision", ⟨"C", "A.B"⟩⟩ := by decide

/-- C1 (amended): for every pair of descriptors whose UUIDs are distinct and
contain no `.` character (as real profile UUIDs do not), the export filenames
are distinct — in particular even when the display names are identical. -/
theorem provProfileExportFileName_distinct_uuid_distinct_name
    (d1 d2 : ProvisioningProfileFileInfoModel)
    (h1 : '.' ∉ d1.ProvisioningProfileInfo.UUID.data)
    (h2 : '.' ∉ d2.ProvisioningProfileInfo.UUID.data)
    (hne : d1.ProvisioningProfileInfo.UUID ≠ d2.ProvisioningProfileInfo.UUID) :
    provProfileExportFileName d1 ≠ provProfileExportFileName d2 := by
  intro heq
  apply hne
  rw [provProfileExportFileName_eq_spec, provProfileExportFileName_eq_spec] at heq
  have hd := congrArg String.data heq
  rw [specExportFileName_data, specExportFileName_data] at hd
  exact String.ext (append_dot_cancel _ _ _ _ h1 h2 hd)

/-- Witness for the amended C1: identical display names, distinct dot-free
UUIDs, distinct filenames. -/
theorem provProfileExportFileName_distinct_uuid_distinct_name_witness :
    provProfileExportFileName ⟨"/p/a.mobileprovision", ⟨"Same Name", "1111-AAAA"⟩⟩ ≠
      provProfileExportFileName ⟨"/p/b.mobileprovision", ⟨"Same Name", "2222-BBBB"⟩⟩ :=
  provProfileExportFileName_distinct_uuid_distinct_name _ _
    (by decide) (by decide) (by decide)

/-- C10: `exportProvisioningProfiles` copies files in exactly the order of its
input descriptor sequence (its copy trace is the in-order image of an initial
segment of the inputs), and on an empty input it performs no copies and
returns no error. -/
theorem exportProvisioningProfiles_in_order :
    (∀ (runCopy : String → String → Option String) (dir : String),
        exportProvisioningProfiles runCopy [] dir = ([], none)) ∧
    (∀ (runCopy : String → String → Option String)
        (infos : List ProvisioningProfileFileInfoModel) (dir : String),
        ∃ k, (exportProvisioningProfiles runCopy infos dir).1 =
          (infos.take k).map
            (fun i => (i.Path, filepathJoin dir (provProfileExportFileName i)))) := by
  refine ⟨fun _ _ => rfl, fun runCopy infos dir => ?_⟩
  induction infos with
  | nil => exact ⟨0, rfl⟩
  | cons i rest ih =>
    cases hc : runCopy i.Path (filepathJoin dir (provProfileExportFileName i)) with
    | some e => exact ⟨1, by simp [exportProvisioningProfiles, hc]⟩
    | none =>
      obtain ⟨k, hk⟩ := ih
      exact ⟨k + 1, by simp [exportProvisioningProfiles, hc, hk]⟩

/-- C3 counterexample: with every copy failing, only the first descriptor's
copy is attempted — the second descriptor's file is never exported, so one
failing copy does prevent later descriptors from being exported. -/
theorem exportProvisioningProfiles_abort_counterexample :
    exportProvisioningProfiles (fun _ _ => some "permission denied")
        [⟨"/p/a.mobileprovision", ⟨"A", "1111"⟩⟩, ⟨"/p/b.mobileprovision", ⟨"B", "2222"⟩⟩]
        "/out" =
      ([("/p/a.mobileprovision", "/out/1111.A.mobileprovision")],
       some ("Failed to copy Provisioning Profile (from: /p/a.mobileprovision) " ++
         "(to: /out/1111.A.mobileprovision), error: permission denied")) ∧
    ("/p/b.mobileprovision", "/out/2222.B.mobileprovision") ∉
      (exportProvisioningProfiles (fun _ _ => some "permission denied")
        [⟨"/p/a.mobileprovision", ⟨"A", "1111"⟩⟩, ⟨"/p/b.mobileprovision", ⟨"B", "2222"⟩⟩]
        "/out").1 := by decide

/-- C3 (amended): when one copy fails, the returned error names that specific
file (its source and destination paths), and the export stops there: the
descriptors before it were copied in order and the descriptors after it are
not exported. -/
theorem exportProvisioningProfiles_stops_at_first_failure
    (runCopy : String → String → Option String) (dir : String)
    (pre : List ProvisioningProfileFileInfoModel)
    (info : ProvisioningProfileFileInfoModel)
    (rest : List ProvisioningProfileFileInfoModel) (e : String)
    (hpre : ∀ i ∈ pre, runCopy i.Path (filepathJoin dir (provProfileExportFileName i)) = none)
    (hfail : runCopy info.Path (filepathJoin dir (provProfileExportFileName info)) = some e) :
    exportProvisioningProfiles runCopy (pre ++ info :: rest) dir =
      (pre.map (fun i => (i.Path, filepathJoin dir (provProfileExportFileName i))) ++
        [(info.Path, filepathJoin dir (provProfileExportFileName info))],
       some ("Failed to copy Provisioning Profile (from: " ++ info.Path ++ ") (to: " ++
         filepathJoin dir (provProfileExportFileName info) ++ "), error: " ++ e)) := by
  revert hpre
  induction pre with
  | nil => intro _; simp [exportProvisioningProfiles, hfail]
  | cons p ps ih =>
    intro hpre
    have hp := hpre p (List.mem_cons_self p ps)
    have hps := fun i hi => hpre i (List.mem_cons_of_mem p hi)
    simp [exportProvisioningProfiles, hp, ih hps]

/-- Witness for the amended C3: the middle copy of three fails; the first was
copied, the third was not, and the error names the middle file. -/
theorem exportProvisioningProfiles_stops_at_first_failure_witness :
    exportProvisioningProfiles
        (fun s _ => if s == "/p/b.mobileprovision" then some "boom" else none)
        ([⟨"/p/a.mobileprovision", ⟨"A", "1111"⟩⟩] ++
          (⟨"/p/b.mobileprovision", ⟨"B", "2222"⟩⟩ : ProvisioningProfileFileInfoModel) ::
          [⟨"/p/c.mobileprovision", ⟨"C", "3333"⟩⟩]) "/out" =
      ([("/p/a.mobileprovision", "/out/1111.A.mobileprovision"),
        ("/p/b.mobileprovision", "/out/2222.B.mobileprovision")],
       some ("Failed to copy Provisioning Profile (from: /p/b.mobileprovision) " ++
         "(to: /out/2222.B.mobileprovision), error: boom")) :=
  exportProvisioningProfiles_stops_at_first_failure _ "/out" _ _ _ "boom"
    (by decide) (by decide)

/-- C4: every run of the scan that reaches the build step writes the captured
build transcript under the fixed name `xcodebuild-output.log` in the export
output directory, regardless of whether the settings scan succeeded or
failed (no assumption is made on the scan's error component). -/
theorem scanXcodeProject_writes_transcript {σ : Type} (env : XcodeScanEnv σ)
    (dir projectPath scheme : String)
    (hinit : env.initExportOutputDir = Except.ok dir)
    (hproj : resolveProjectPath env = Except.ok projectPath)
    (hscheme : resolveScheme env = Except.ok scheme) :
    (filepathJoin dir "xcodebuild-output.log",
      (env.scanCodeSigningSettings projectPath scheme).2.1,
      (env.writeStringToFile (filepathJoin dir "xcodebuild-output.log")
        (env.scanCodeSigningSettings projectPath scheme).2.1).isNone) ∈
      (scanXcodeProject env).2.writes := by
  simp only [scanXcodeProject, hinit, hproj, hscheme, scanXcodeProjectFrom]
  cases hscan : (env.scanCodeSigningSettings projectPath scheme).2.2 with
  | none => simp [hscan]
  | some e => simp [hscan]

/-- Witness for C4 at the concrete launch-failure environment: even with a
failing settings scan, the (empty) transcript write is in the trace. -/
theorem scanXcodeProject_writes_transcript_witness :
    (filepathJoin "/out" "xcodebuild-output.log",
      (envLaunchFail.scanCodeSigningSettings "/proj/App.xcodeproj" "App").2.1,
      (envLaunchFail.writeStringToFile (filepathJoin "/out" "xcodebuild-output.log")
        (envLaunchFail.scanCodeSigningSettings "/proj/App.xcodeproj" "App").2.1).isNone) ∈
      (scanXcodeProject envLaunchFail).2.writes :=
  scanXcodeProject_writes_transcript envLaunchFail "/out" "/proj/App.xcodeproj" "App"
    rfl rfl rfl

/-- C5 counterexample: in the concrete environment where the build tool cannot
be launched (`ScanCodeSigningSettings` reports a launch error with an empty
transcript), the scan does return a failure and does not invoke the export
step — but a transcript file is written (`/out/xcodebuild-output.log`, with
empty contents), contradicting the claim that no transcript file is written. -/
theorem scanXcodeProject_launch_error_counterexample :
    (scanXcodeProject envLaunchFail).2.writes =
      [("/out/xcodebuild-output.log", "", true)] ∧
    (scanXcodeProject envLaunchFail).1.isSome = true ∧
    (scanXcodeProject envLaunchFail).2.exportInvoked = false := by decide

/-- C5 (amended): when the settings scan (in particular a build-launch
failure) reports an error, `scanXcodeProject` returns the wrapped failure and
never invokes the export step, but it still writes the captured (possibly
empty) output under `xcodebuild-output.log` in the export directory. -/
theorem scanXcodeProject_launch_error_still_writes {σ : Type} (env : XcodeScanEnv σ)
    (dir projectPath scheme e : String)
    (hinit : env.initExportOutputDir = Except.ok dir)
    (hproj : resolveProjectPath env = Except.ok projectPath)
    (hscheme : resolveScheme env = Except.ok scheme)
    (herr : (env.scanCodeSigningSettings projectPath scheme).2.2 = some e) :
    (scanXcodeProject env).1 =
      printXcodeScanFinishedWithError ("Failed to detect code signing settings: " ++ e) ∧
    (scanXcodeProject env).2.exportInvoked = false ∧
    (scanXcodeProject env).2.writes =
      [(filepathJoin dir "xcodebuild-output.log",
        (env.scanCodeSigningSettings projectPath scheme).2.1,
        (env.writeStringToFile (filepathJoin dir "xcodebuild-output.log")
          (env.scanCodeSigningSettings projectPath scheme).2.1).isNone)] := by
  simp [scanXcodeProject, hinit, hproj, hscheme, scanXcodeProjectFrom, herr]

/-- Witness for the amended C5 at the concrete launch-failure environment. -/
theorem scanXcodeProject_launch_error_still_writes_witness :
    (scanXcodeProject envLaunchFail).1 =
      some ("Xcode scan finished with error: Failed to detect code signing settings: " ++
        "failed to start the build: xcodebuild executable not found") ∧
    (scanXcodeProject envLaunchFail).2.exportInvoked = false ∧
    (scanXcodeProject envLaunchFail).2.writes =
      [("/out/xcodebuild-output.log", "", true)] :=
  scanXcodeProject_launch_error_still_writes envLaunchFail "/out" "/proj/App.xcodeproj"
    "App" "failed to start the build: xcodebuild executable not found" rfl rfl rfl rfl

/-- C7: whenever the code-signing-settings scan reports an error (whatever
arguments it is called with), `scanXcodeProject` returns a failure and the
export step is never invoked. -/
theorem scanXcodeProject_error_propagates {σ : Type} (env : XcodeScanEnv σ)
    (h : ∀ projectPath scheme,
      ((env.scanCodeSigningSettings projectPath scheme).2.2).isSome = true) :
    (scanXcodeProject env).1.isSome = true ∧
    (scanXcodeProject env).2.exportInvoked = false := by
  rw [scanXcodeProject]
  cases hinit : env.initExportOutputDir with
  | error err => simp [printXcodeScanFinishedWithError, printFinishedWithError]
  | ok dir =>
    cases hproj : resolveProjectPath env with
    | error e1 => simp [printXcodeScanFinishedWithError, printFinishedWithError]
    | ok projectPath =>
      cases hscheme : resolveScheme env with
      | error e2 => simp [printXcodeScanFinishedWithError, printFinishedWithError]
      | ok scheme =>
        have he := h projectPath scheme
        simp only [scanXcodeProjectFrom]
        cases herr : (env.scanCodeSigningSettings projectPath scheme).2.2 with
        | none => rw [herr] at he; simp at he
        | some e =>
          simp [herr, printXcodeScanFinishedWithError, printFinishedWithError]

/-- Witness for C7 at the concrete launch-failure environment. -/
theorem scanXcodeProject_error_propagates_witness :
    (scanXcodeProject envLaunchFail).1.isSome = true ∧
    (scanXcodeProject envLaunchFail).2.exportInvoked = false :=
  scanXcodeProject_error_propagates envLaunchFail (fun _ _ => rfl)
